import Mathlib

/-!
Shallow embedding of the raas-tools invoice utilities: ISO 11649 structured
reference (SCOR) generation, invoice-number derivation, currency conversion,
and the yearly financial aggregation, together with theorems settling the
spec claims against this embedding.
-/

namespace RaasTools

/-! ## Reference codec (src/invoice-utils.ts) -/

/-- Characters kept by the cleaning step: ASCII letters and digits. -/
def isAlnumChar (c : Char) : Bool := c.isAlpha || c.isDigit

/-- Strips every character that is not an ASCII letter or digit
(the replace of `[^a-zA-Z0-9]` by the empty string). -/
def cleanRef (s : String) : String := String.mk (s.data.filter isAlnumChar)

/-- Per-character step of the SCOR conversion: digits stay, any other
character is replaced by the decimal form of its code point minus 55
(so A maps to 10, B to 11, ..., R to 27, F to 15, Z to 35). -/
def scorMapChar (c : Char) : String :=
  if c.isDigit then String.mk [c] else Nat.repr (c.toNat - 55)

/-- Maps a string to a digit string character by character. -/
def scorConvert (s : String) : String := String.join (s.data.map scorMapChar)

/-- Uppercases each character (the toUpperCase method on ASCII data). -/
def toUpperStr (s : String) : String := String.mk (s.data.map Char.toUpper)

/-- Reads a digit string as an (arbitrary-precision) natural number,
as the BigInt constructor does on a digit string. -/
def digitsToNat (s : String) : Nat :=
  s.data.foldl (fun a c => 10 * a + (c.toNat - 48)) 0

/-- Pads a string on the left with a fill character up to the given length,
as the padStart method does. -/
def padStart (s : String) (n : Nat) (c : Char) : String :=
  String.mk (List.replicate (n - s.length) c) ++ s

/-- The mod-97 remainder computed inside the reference generator. -/
def scorMod (invoiceNumber : String) : Nat :=
  digitsToNat (scorConvert (scorConvert (toUpperStr (cleanRef invoiceNumber)) ++ "RF00")) % 97

/-- The numeric value of the two check digits: 98 minus the remainder. -/
def checkValue (invoiceNumber : String) : Nat := 98 - scorMod invoiceNumber

/-- The two-character check-digit string of the generated reference. -/
def checkStr (invoiceNumber : String) : String :=
  padStart (Nat.repr (checkValue invoiceNumber)) 2 '0'

/-- Generates a SCOR reference from an invoice number
(generateSCORReference of src/invoice-utils.ts). -/
def generateSCORReference (invoiceNumber : String) : String :=
  let cleanNumber := cleanRef invoiceNumber
  let converted := scorConvert (toUpperStr cleanNumber)
  let withRF := converted ++ "RF00"
  let numeric := scorConvert withRF
  let mod := digitsToNat numeric % 97
  let checkDigits := padStart (Nat.repr (98 - mod)) 2 '0'
  "RF" ++ checkDigits ++ cleanNumber

/-! ## Currency converter (src/currency-converter.ts) -/

/-- A rate table: currency code to CHF-multiplier entries of a keyed
record, in insertion order. -/
abbrev ExchangeRates := List (String × ℚ)

/-- Looks the rate stored for a currency up (property access on the
record). -/
def lookupRate (rates : ExchangeRates) (c : String) : Option ℚ :=
  (rates.find? (fun p => p.1 == c)).map (fun p => p.2)

/-- JS falsiness of a looked-up rate: absent, or present and equal to 0. -/
def falsyRate (r : Option ℚ) : Bool :=
  match r with
  | none => true
  | some v => v == 0

/-- Failure raised by convertCurrency when a needed rate is unavailable. -/
inductive ConvError where
  | noRate (fromCurrency toCurrency : String)
deriving DecidableEq

/-- Decidable equality of exception-carrying results. -/
instance instDecEqExcept {ε α : Type} [DecidableEq ε] [DecidableEq α] :
    DecidableEq (Except ε α) := fun a b =>
  match a, b with
  | Except.ok x, Except.ok y =>
    if h : x = y then isTrue (by rw [h])
    else isFalse (by intro hh; cases hh; exact h rfl)
  | Except.error x, Except.error y =>
    if h : x = y then isTrue (by rw [h])
    else isFalse (by intro hh; cases hh; exact h rfl)
  | Except.ok _, Except.error _ => isFalse (by intro hh; cases hh)
  | Except.error _, Except.ok _ => isFalse (by intro hh; cases hh)

/-- Converts an amount from one currency to another
(convertCurrency of src/currency-converter.ts): identity when the two
currencies are equal, otherwise a failure when either looked-up rate is
falsy, otherwise multiply by the source rate and divide by the target
rate. -/
def convertCurrency (amount : ℚ) (fromCurrency toCurrency : String)
    (rates : ExchangeRates) : Except ConvError ℚ :=
  if fromCurrency = toCurrency then
    Except.ok amount
  else if falsyRate (lookupRate rates fromCurrency) ||
      falsyRate (lookupRate rates toCurrency) then
    Except.error (ConvError.noRate fromCurrency toCurrency)
  else
    Except.ok (amount * (lookupRate rates fromCurrency).getD 0 /
      (lookupRate rates toCurrency).getD 0)

/-! ## Invoice number derivation (src/invoice-utils.ts) -/

/-- Hex digit recognizer (the digits parseInt accepts with radix 16). -/
def isHexDigitChar (c : Char) : Bool :=
  c.isDigit || ('a' ≤ c && c ≤ 'f') || ('A' ≤ c && c ≤ 'F')

/-- Value of one hex digit. -/
def hexDigitVal (c : Char) : Nat :=
  if c.isDigit then c.toNat - 48
  else if 'a' ≤ c then c.toNat - 87
  else c.toNat - 55

/-- parseInt with radix 16: reads the longest front run of hex digits, and
is NaN (none) when that run is empty. -/
def parseIntHex (s : String) : Option Nat :=
  let ds := s.data.takeWhile isHexDigitChar
  if ds.isEmpty then none
  else some (ds.foldl (fun a c => 16 * a + hexDigitVal c) 0)

/-- Invoice JSON data as the numbering functions see it: the optional
explicit number field, and the canonical JSON serialization of the whole
object (the text that is hashed). -/
structure InvoiceJson where
  number : Option String
  serialized : String
deriving DecidableEq

/-- JS truthiness of the optional number field: present and non-empty. -/
def truthyStr (o : Option String) : Bool :=
  match o with
  | none => false
  | some s => s ≠ ""

/-- The 3-digit zero-padded hash suffix of a derived invoice number: the
first 8 hex characters of the SHA-256 digest (the digest function of the
crypto library, passed in as a parameter) of the serialization, read base
16, reduced mod 1000. -/
def hashSuffix (sha256hex : String → String) (serialized : String) : String :=
  match parseIntHex (String.mk ((sha256hex serialized).data.take 8)) with
  | some n => padStart (Nat.repr (n % 1000)) 3 '0'
  | none => padStart "NaN" 3 '0'

/-- Generates an invoice number from the current date and the invoice data
(generateInvoiceNumber of src/invoice-utils.ts); the two-digit year and
month of the current date are passed in explicitly. -/
def generateInvoiceNumber (sha256hex : String → String) (nowYY nowMM : String)
    (d : InvoiceJson) : String :=
  nowYY ++ nowMM ++ "-" ++ hashSuffix sha256hex d.serialized

/-- Match of the pattern of a four-digit year, a dash and a two-digit month
at the start of the filename, returning the two captured groups. -/
def matchYYYYMM (filename : String) : Option (String × String) :=
  match filename.data with
  | y1 :: y2 :: y3 :: y4 :: d :: m1 :: m2 :: _ =>
    if y1.isDigit && y2.isDigit && y3.isDigit && y4.isDigit && d == '-' &&
        m1.isDigit && m2.isDigit then
      some (String.mk [y1, y2, y3, y4], String.mk [m1, m2])
    else none
  | _ => none

/-- Splits a character list at a separator character (the split method with
a one-character separator). -/
def splitChar (sep : Char) : List Char → List (List Char)
  | [] => [[]]
  | c :: rest =>
    let r := splitChar sep rest
    if c == sep then [] :: r
    else
      match r with
      | [] => [[c]]
      | g :: gs => (c :: g) :: gs

/-- Generates an invoice number for a specific file
(generateInvoiceNumberFromFile of src/invoice-utils.ts): a provided number
wins; else a filename of the year-month form gives the YYMM piece; else the
standard generation from the current date is used. -/
def generateInvoiceNumberFromFile (sha256hex : String → String)
    (nowYY nowMM : String) (filePath : String) (invoiceData : InvoiceJson) :
    String :=
  if truthyStr invoiceData.number then invoiceData.number.getD ""
  else
    let filename := String.mk ((splitChar '/' filePath.data).getLastD [])
    match matchYYYYMM filename with
    | none => generateInvoiceNumber sha256hex nowYY nowMM invoiceData
    | some (yyyy, mm) =>
      String.mk (yyyy.data.drop 2) ++ mm ++ "-" ++
        hashSuffix sha256hex invoiceData.serialized

/-! ## Financial aggregation (the Buchführung report generator) -/

/-- Creditor identity fields the consistency check compares. -/
structure Creditor where
  name : String
  uid : String
deriving DecidableEq

/-- One invoice line item. -/
structure InvoiceItem where
  amount : ℚ
deriving DecidableEq

/-- The invoice-file fields the aggregation reads. -/
structure InvoiceData where
  creditor : Creditor
  items : List InvoiceItem
  vatRate : Option ℚ
  currency : Option String
deriving DecidableEq

/-- A parsed invoice as the report loop receives it. -/
structure ProcessedInvoice where
  client : String
  month : String
  fileName : String
  date : String
  invoiceNumber : String
  data : InvoiceData
deriving DecidableEq

/-- One month bucket of the report. -/
structure MonthEntry where
  total : ℚ
  totalCHF : ℚ
  byCurrency : List (String × ℚ)
deriving DecidableEq

/-- One client bucket of the report. -/
structure ClientEntry where
  totalBilled : ℚ
  totalBilledCHF : ℚ
  invoiceCount : Nat
  currency : String
deriving DecidableEq

/-- One row of the per-invoice list of the report. -/
structure InvoiceEntry where
  client : String
  month : String
  date : String
  invoiceNumber : String
  amount : ℚ
  amountCHF : ℚ
  currency : String
  items : Nat
  fileName : String
deriving DecidableEq

/-- The aggregate report, with the warnings the run logged. -/
structure Report where
  totalRevenue : List (String × ℚ)
  totalRevenueCHF : ℚ
  monthlyRevenue : List (String × MonthEntry)
  clientSummary : List (String × ClientEntry)
  invoices : List InvoiceEntry
  warnings : List ConvError
deriving DecidableEq

/-- Updates the entry of a key in a keyed record, creating it from a
default value first when absent (the create-if-missing-then-update idiom
of the report code); insertion order of keys is preserved. -/
def updateAlist {α : Type} (l : List (String × α)) (k : String) (d : α)
    (f : α → α) : List (String × α) :=
  match l with
  | [] => [(k, f d)]
  | (k1, v) :: rest =>
    if k1 == k then (k1, f v) :: rest else (k1, v) :: updateAlist rest k d f

/-- Adds an amount to the numeric entry of a key, starting from 0 when the
key is absent. -/
def bump (l : List (String × ℚ)) (k : String) (x : ℚ) : List (String × ℚ) :=
  updateAlist l k 0 (fun v => v + x)

/-- The currency of an invoice, defaulting to CHF when absent or empty
(the or-default on the currency field). -/
def orCHF (c : Option String) : String :=
  match c with
  | none => "CHF"
  | some s => if s == "" then "CHF" else s

/-- The invoice total: sum of the item amounts, with VAT added on top when
the vat rate is set and non-zero. -/
def invoiceTotalOf (d : InvoiceData) : ℚ :=
  let subtotal := d.items.foldl (fun s it => s + it.amount) 0
  match d.vatRate with
  | some r => if r == 0 then subtotal else subtotal + subtotal * (r / 100)
  | none => subtotal

/-- The CHF value of an invoice total, together with the warning recorded
when its conversion failed: CHF invoices pass through, other currencies
are converted, and a failed conversion falls back to the 1:1 value with a
logged warning. -/
def convResult (rates : ExchangeRates) (inv : ProcessedInvoice) :
    ℚ × Option ConvError :=
  let currency := orCHF inv.data.currency
  let t := invoiceTotalOf inv.data
  if currency == "CHF" then (t, none)
  else
    match convertCurrency t currency "CHF" rates with
    | Except.ok v => (v, none)
    | Except.error e => (t, some e)

/-- The per-invoice summary row the loop appends to the report list. -/
def entryOf (rates : ExchangeRates) (inv : ProcessedInvoice) : InvoiceEntry :=
  { client := inv.client
    month := inv.month
    date := inv.date
    invoiceNumber := inv.invoiceNumber
    amount := invoiceTotalOf inv.data
    amountCHF := (convResult rates inv).1
    currency := orCHF inv.data.currency
    items := inv.data.items.length
    fileName := inv.fileName }

/-- Folds one invoice into the accumulating report (the body of the
per-invoice loop of generateReport). -/
def stepInvoice (rates : ExchangeRates) (rep : Report)
    (inv : ProcessedInvoice) : Report :=
  let currency := orCHF inv.data.currency
  let invoiceTotal := invoiceTotalOf inv.data
  let conv := convResult rates inv
  let invoiceTotalCHF := conv.1
  { totalRevenue := bump rep.totalRevenue currency invoiceTotal
    totalRevenueCHF := rep.totalRevenueCHF + invoiceTotalCHF
    monthlyRevenue := updateAlist rep.monthlyRevenue inv.month ⟨0, 0, []⟩
      (fun m => ⟨m.total + invoiceTotal, m.totalCHF + invoiceTotalCHF,
        bump m.byCurrency currency invoiceTotal⟩)
    clientSummary := updateAlist rep.clientSummary inv.client
      ⟨0, 0, 0, currency⟩
      (fun c => ⟨c.totalBilled + invoiceTotal,
        c.totalBilledCHF + invoiceTotalCHF, c.invoiceCount + 1, c.currency⟩)
    invoices := rep.invoices ++ [entryOf rates inv]
    warnings := rep.warnings ++ conv.2.toList }

/-- Checks that every invoice's creditor name and uid equal those of the
first invoice (the consistency validation of generateReport; vacuously
true with fewer than two invoices). -/
def validateCreditors (invoices : List ProcessedInvoice) : Bool :=
  match invoices with
  | [] => true
  | first :: rest =>
    rest.all (fun inv =>
      inv.data.creditor.name == first.data.creditor.name &&
      inv.data.creditor.uid == first.data.creditor.uid)

/-- Fatal abort of the whole report run. -/
inductive FatalError where
  | creditorMismatch
deriving DecidableEq

/-- The initial report accumulator. -/
def emptyReport : Report := ⟨[], 0, [], [], [], []⟩

/-- Code-point comparison of two character lists, true when the first is
less or equal (ascending order of the date comparator). -/
def charListLe : List Char → List Char → Bool
  | [], _ => true
  | _ :: _, [] => false
  | a :: as, b :: bs =>
    if a.toNat < b.toNat then true
    else if b.toNat < a.toNat then false
    else charListLe as bs

/-- Inserts a row into a date-sorted list of rows. -/
def insertByDate (e : InvoiceEntry) : List InvoiceEntry → List InvoiceEntry
  | [] => [e]
  | x :: xs =>
    if charListLe x.date.data e.date.data then x :: insertByDate e xs
    else e :: x :: xs

/-- Sorts the per-invoice rows by date string ascending (the sort by the
date comparator at the end of generateReport). -/
def sortByDate : List InvoiceEntry → List InvoiceEntry
  | [] => []
  | x :: xs => insertByDate x (sortByDate xs)

/-- Generates the yearly report (the aggregation core of generateReport of
the Buchführung script): validates creditor consistency, folds every
invoice into the report, and sorts the rows by date; a validation failure
aborts the run with a fatal error before any report exists. -/
def generateReport (invoices : List ProcessedInvoice)
    (rates : ExchangeRates) : Except FatalError Report :=
  if validateCreditors invoices then
    let rep := invoices.foldl (stepInvoice rates) emptyReport
    Except.ok { rep with invoices := sortByDate rep.invoices }
  else
    Except.error FatalError.creditorMismatch

/-- Sum of a numeric projection over the values of a keyed record. -/
def sumBy {α : Type} (l : List (String × α)) (f : α → ℚ) : ℚ :=
  (l.map (fun p => f p.2)).sum

/-! ## Sample data for concrete runs -/

/-- A sample creditor. -/
def creditorA : Creditor := ⟨"Grovina GmbH", "CHE-101"⟩

/-- A creditor that differs from the sample one only in the uid. -/
def creditorB : Creditor := ⟨"Grovina GmbH", "CHE-202"⟩

/-- A sample invoice billed in CHF. -/
def sampleInvoiceCHF : ProcessedInvoice :=
  ⟨"Acme", "03", "2025-03-acme.json", "2025-03-01", "2503-001",
    ⟨creditorA, [⟨100⟩], none, none⟩⟩

/-- A sample invoice billed in EUR. -/
def sampleInvoiceEUR : ProcessedInvoice :=
  ⟨"Beta", "04", "2025-04-beta.json", "2025-04-01", "2504-002",
    ⟨creditorA, [⟨50⟩], none, some "EUR"⟩⟩

/-! ## Helper lemmas -/

/-- Sum of a keyed record splits off its head entry. -/
theorem sumBy_cons {α : Type} (p : String × α) (l : List (String × α))
    (f : α → ℚ) : sumBy (p :: l) f = f p.2 + sumBy l f := by
  simp [sumBy]

/-- Updating one entry of a keyed record changes the sum of a projection by
the increment the update applies, provided the projection of the default
value is zero. -/
theorem sumBy_updateAlist {α : Type} (l : List (String × α)) (k : String)
    (d : α) (g : α → α) (f : α → ℚ) (x : ℚ)
    (hg : ∀ v, f (g v) = f v + x) (hd : f d = 0) :
    sumBy (updateAlist l k d g) f = sumBy l f + x := by
  induction l with
  | nil => simp [updateAlist, sumBy, hg, hd]
  | cons p rest ih =>
    obtain ⟨k1, v⟩ := p
    by_cases h : k1 == k
    · simp only [updateAlist, if_pos h, sumBy_cons, hg]
      ring
    · simp only [updateAlist, if_neg h, sumBy_cons, ih]
      ring

/-- The two cross-check sums are preserved by folding in one invoice. -/
theorem sums_step (rates : ExchangeRates) (rep : Report)
    (inv : ProcessedInvoice)
    (h1 : sumBy rep.clientSummary (fun c => c.totalBilledCHF) =
      rep.totalRevenueCHF)
    (h2 : sumBy rep.monthlyRevenue (fun m => m.totalCHF) =
      rep.totalRevenueCHF) :
    sumBy (stepInvoice rates rep inv).clientSummary
        (fun c => c.totalBilledCHF) =
      (stepInvoice rates rep inv).totalRevenueCHF ∧
    sumBy (stepInvoice rates rep inv).monthlyRevenue (fun m => m.totalCHF) =
      (stepInvoice rates rep inv).totalRevenueCHF := by
  constructor
  · simp only [stepInvoice]
    rw [sumBy_updateAlist rep.clientSummary inv.client
      ⟨0, 0, 0, orCHF inv.data.currency⟩
      (fun c => ⟨c.totalBilled + invoiceTotalOf inv.data,
        c.totalBilledCHF + (convResult rates inv).1, c.invoiceCount + 1,
        c.currency⟩)
      (fun c => c.totalBilledCHF) ((convResult rates inv).1)
      (fun v => rfl) rfl, h1]
  · simp only [stepInvoice]
    rw [sumBy_updateAlist rep.monthlyRevenue inv.month ⟨0, 0, []⟩
      (fun m => ⟨m.total + invoiceTotalOf inv.data,
        m.totalCHF + (convResult rates inv).1,
        bump m.byCurrency (orCHF inv.data.currency) (invoiceTotalOf inv.data)⟩)
      (fun m => m.totalCHF) ((convResult rates inv).1)
      (fun v => rfl) rfl, h2]

/-- The two cross-check sums are preserved by folding in a whole list of
invoices. -/
theorem sums_foldl (rates : ExchangeRates) :
    ∀ (invoices : List ProcessedInvoice) (rep : Report),
      sumBy rep.clientSummary (fun c => c.totalBilledCHF) =
        rep.totalRevenueCHF →
      sumBy rep.monthlyRevenue (fun m => m.totalCHF) = rep.totalRevenueCHF →
      sumBy (invoices.foldl (stepInvoice rates) rep).clientSummary
          (fun c => c.totalBilledCHF) =
        (invoices.foldl (stepInvoice rates) rep).totalRevenueCHF ∧
      sumBy (invoices.foldl (stepInvoice rates) rep).monthlyRevenue
          (fun m => m.totalCHF) =
        (invoices.foldl (stepInvoice rates) rep).totalRevenueCHF
  | [], _, h1, h2 => ⟨h1, h2⟩
  | inv :: rest, rep, h1, h2 => by
    have hs := sums_step rates rep inv h1 h2
    exact sums_foldl rates rest _ hs.1 hs.2

/-- Closed form of the per-invoice rows and warnings of the fold: the rows
are one appended summary row per invoice, in input order, and the warnings
are those of the failed conversions, in input order. -/
theorem foldl_rows_warnings (rates : ExchangeRates) :
    ∀ (invoices : List ProcessedInvoice) (rep : Report),
      (invoices.foldl (stepInvoice rates) rep).invoices =
        rep.invoices ++ invoices.map (entryOf rates) ∧
      (invoices.foldl (stepInvoice rates) rep).warnings =
        rep.warnings ++
          invoices.filterMap (fun inv => (convResult rates inv).2)
  | [], rep => by simp
  | inv :: rest, rep => by
    have ih := foldl_rows_warnings rates rest (stepInvoice rates rep inv)
    refine ⟨?_, ?_⟩
    · rw [List.foldl_cons, ih.1]
      simp [stepInvoice, List.append_assoc]
    · rw [List.foldl_cons, ih.2]
      cases hc : (convResult rates inv).2 with
      | none => simp [stepInvoice, hc, List.filterMap_cons]
      | some e => simp [stepInvoice, hc, List.filterMap_cons]

/-- Membership is preserved by inserting a row into a date-sorted list. -/
theorem mem_insertByDate (a e : InvoiceEntry) (l : List InvoiceEntry) :
    a ∈ insertByDate e l ↔ a = e ∨ a ∈ l := by
  induction l with
  | nil => simp [insertByDate]
  | cons x xs ih =>
    by_cases h : charListLe x.date.data e.date.data
    · simp only [insertByDate, if_pos h, List.mem_cons, ih]
      tauto
    · simp only [insertByDate, if_neg h, List.mem_cons]

/-- Membership is preserved by the date sort. -/
theorem mem_sortByDate (a : InvoiceEntry) (l : List InvoiceEntry) :
    a ∈ sortByDate l ↔ a ∈ l := by
  induction l with
  | nil => simp [sortByDate]
  | cons x xs ih => simp [sortByDate, mem_insertByDate, ih]

/-- The mod-97 remainder is below 97. -/
theorem scorMod_lt (s : String) : scorMod s < 97 := by
  unfold scorMod
  exact Nat.mod_lt _ (by norm_num)

/-- For a value below 99, the decimal form has at most two characters, the
zero-padded form has exactly two, and reading the padded form back as a
digit string recovers the value. -/
theorem padded_repr_facts :
    ∀ n : Nat, n < 99 → (Nat.repr n).length ≤ 2 ∧
      (padStart (Nat.repr n) 2 '0').length = 2 ∧
      digitsToNat (padStart (Nat.repr n) 2 '0') = n := by decide

/-! ## Claims -/

/-- C1 counterexample: the structured-reference generator applied to the
invoice number "A1" does not return "RF42A1" (the letter F maps to
70 − 55 = 15, not 31, so the intermediate digit string is not
"101273100"). -/
theorem C1_counterexample : generateSCORReference "A1" ≠ "RF42A1" := by
  decide

/-- C1 (amended): the structured-reference generator applied to the
invoice number "A1" returns "RF90A1": the cleaned payload "A1" maps to the
digit string "101"; appending "RF00" and letter-mapping (R to 27, F to 15)
yields "101271500"; its remainder modulo 97 is 8; the check digits are
98 − 8 = 90. -/
theorem C1_scor_A1 :
    cleanRef "A1" = "A1" ∧
    scorConvert (toUpperStr (cleanRef "A1")) = "101" ∧
    scorConvert (scorConvert (toUpperStr (cleanRef "A1")) ++ "RF00") =
      "101271500" ∧
    digitsToNat "101271500" % 97 = 8 ∧
    generateSCORReference "A1" = "RF90A1" := by
  refine ⟨by decide, by decide, by decide, by decide, by decide⟩

/-- C2 counterexample: the input "---" has an empty cleaned form, yet the
generator does not fail: it returns the reference "RF04". -/
theorem C2_counterexample :
    cleanRef "---" = "" ∧ generateSCORReference "---" = "RF04" := by decide

/-- C2 (amended): the structured-reference generator returns a result for
every input; when the cleaned form is empty it does not fail but returns
"RF04", the reference whose payload is empty (the check digits of "RF00"
alone). -/
theorem C2_empty_clean_total (s : String) (h : cleanRef s = "") :
    generateSCORReference s = "RF04" := by
  simp only [generateSCORReference, h]
  decide

/-- C2 witness: the amended claim applied to the concrete input "---". -/
theorem C2_witness : generateSCORReference "---" = "RF04" :=
  C2_empty_clean_total "---" (by decide)

/-- C7: every generated reference is "RF", then exactly two check-digit
characters whose numeric value lies between 2 and 98 (the mod-97 remainder
lies in 0..96 and the check value 98 minus the remainder is zero-padded to
width two), then the cleaned payload. -/
theorem C7_check_digit_range (s : String) :
    2 ≤ checkValue s ∧ checkValue s ≤ 98 ∧
    (checkStr s).length = 2 ∧
    digitsToNat (checkStr s) = checkValue s ∧
    generateSCORReference s = "RF" ++ checkStr s ++ cleanRef s := by
  have hm : scorMod s < 97 := scorMod_lt s
  have hv : checkValue s < 99 := by unfold checkValue; omega
  have hfacts := padded_repr_facts (checkValue s) hv
  refine ⟨?_, ?_, hfacts.2.1, hfacts.2.2, rfl⟩
  · unfold checkValue; omega
  · unfold checkValue; omega

/-- C9: with no explicit invoice number and a source filename that starts
with a four-digit year, a dash and a two-digit month, the derived invoice
number is the last two digits of the year, then the month, then a dash,
then the 3-digit zero-padded value of the first 8 hex characters of the
digest of the serialized data read base 16 and reduced mod 1000; and an
identical serialization yields the identical number regardless of the
current date. -/
theorem C9_number_from_file (sha256hex : String → String)
    (nowYY nowMM : String) (filePath : String) (d : InvoiceJson)
    (yyyy mm : String) (n : Nat)
    (hnum : truthyStr d.number = false)
    (hmatch : matchYYYYMM
      (String.mk ((splitChar '/' filePath.data).getLastD [])) =
      some (yyyy, mm))
    (hhex : parseIntHex (String.mk ((sha256hex d.serialized).data.take 8)) =
      some n) :
    generateInvoiceNumberFromFile sha256hex nowYY nowMM filePath d =
      String.mk (yyyy.data.drop 2) ++ mm ++ "-" ++
        padStart (Nat.repr (n % 1000)) 3 '0' ∧
    (∀ (nowYY2 nowMM2 : String) (d2 : InvoiceJson),
      truthyStr d2.number = false → d2.serialized = d.serialized →
      generateInvoiceNumberFromFile sha256hex nowYY2 nowMM2 filePath d2 =
        generateInvoiceNumberFromFile sha256hex nowYY nowMM filePath d) := by
  constructor
  · simp only [generateInvoiceNumberFromFile, hnum, Bool.false_eq_true,
      if_false, hmatch, hashSuffix, hhex]
  · intro nowYY2 nowMM2 d2 h2 hs
    simp only [generateInvoiceNumberFromFile, hnum, h2, Bool.false_eq_true,
      if_false, hmatch, hashSuffix, hs]

/-- C9 witness: the theorem applied to the filename "2025-03-acme.json"
and a concrete digest function, giving the number "2503-295". -/
theorem C9_witness_eq :
    generateInvoiceNumberFromFile (fun _ => "ffffffff00aa") "26" "01"
      "2025-03-acme.json" ⟨none, "fixed"⟩ =
      String.mk ("2025".data.drop 2) ++ "03" ++ "-" ++
        padStart (Nat.repr (4294967295 % 1000)) 3 '0' :=
  (C9_number_from_file (fun _ => "ffffffff00aa") "26" "01"
    "2025-03-acme.json" ⟨none, "fixed"⟩ "2025" "03" 4294967295
    (by decide) (by decide) (by decide)).1

/-- C10: conversion with equal source and target currency returns the
amount unchanged for every rate table, including tables with no entry at
all for that currency: the identity check precedes any rate lookup, so no
missing-rate failure can be raised. -/
theorem C10_convert_same_currency (x : ℚ) (C : String) (r : ExchangeRates) :
    convertCurrency x C C r = Except.ok x := by
  simp [convertCurrency]

/-- C5 counterexample: with a table holding the entry 0 for USD and 1 for
CHF, converting between these two distinct currencies fails even though
neither entry is missing, because the stored value 0 is falsy. -/
theorem C5_counterexample :
    lookupRate [("USD", (0 : ℚ)), ("CHF", 1)] "USD" = some 0 ∧
    lookupRate [("USD", (0 : ℚ)), ("CHF", 1)] "CHF" = some 1 ∧
    convertCurrency 1 "USD" "CHF" [("USD", (0 : ℚ)), ("CHF", 1)] =
      Except.error (ConvError.noRate "USD" "CHF") := by decide

/-- C5 (amended): for distinct currencies, conversion fails exactly when
the looked-up rate of either currency is falsy, that is missing or equal
to zero; when both rates are present and non-zero it returns exactly the
amount times the source rate divided by the target rate, with no
intermediate rounding. -/
theorem C5_convert_failure_iff (x : ℚ) (A B : String) (r : ExchangeRates)
    (hAB : A ≠ B) :
    ((∃ e, convertCurrency x A B r = Except.error e) ↔
      falsyRate (lookupRate r A) = true ∨
      falsyRate (lookupRate r B) = true) ∧
    (∀ a b : ℚ, lookupRate r A = some a → lookupRate r B = some b →
      a ≠ 0 → b ≠ 0 → convertCurrency x A B r = Except.ok (x * a / b)) := by
  constructor
  · by_cases hf : (falsyRate (lookupRate r A) ||
        falsyRate (lookupRate r B)) = true
    · rw [Bool.or_eq_true] at hf
      constructor
      · intro _; exact hf
      · intro _
        exact ⟨ConvError.noRate A B, by
          rw [convertCurrency, if_neg hAB,
            if_pos (by rw [Bool.or_eq_true]; exact hf)]⟩
    · rw [Bool.or_eq_true] at hf
      push_neg at hf
      constructor
      · intro ⟨e, he⟩
        rw [convertCurrency, if_neg hAB,
          if_neg (by rw [Bool.or_eq_true]; tauto)] at he
        cases he
      · intro h
        exact absurd h (by tauto)
  · intro a b ha hb ha0 hb0
    have hfa : falsyRate (lookupRate r A) = false := by
      simp [falsyRate, ha, ha0]
    have hfb : falsyRate (lookupRate r B) = false := by
      simp [falsyRate, hb, hb0]
    rw [convertCurrency, if_neg hAB, if_neg (by simp [hfa, hfb]), ha, hb]
    rfl

/-- C5 witness: the amended claim applied to a concrete table with rates 3
for USD and 2 for EUR. -/
theorem C5_witness :
    convertCurrency 2 "USD" "EUR" [("USD", (3 : ℚ)), ("EUR", 2)] =
      Except.ok (2 * 3 / 2) :=
  (C5_convert_failure_iff 2 "USD" "EUR" [("USD", (3 : ℚ)), ("EUR", 2)]
    (by decide)).2 3 2 (by decide) (by decide) (by norm_num) (by norm_num)

/-- C8: round-trip conversion is self-inverse: when both currencies carry
non-zero rates in the table, converting an amount from the one to the
other succeeds, and converting the result back returns exactly the
original amount (exact rational arithmetic: both directions share the same
base rates). -/
theorem C8_round_trip (x : ℚ) (A B : String) (r : ExchangeRates) (a b : ℚ)
    (ha : lookupRate r A = some a) (hb : lookupRate r B = some b)
    (ha0 : a ≠ 0) (hb0 : b ≠ 0) :
    ∃ y, convertCurrency x A B r = Except.ok y ∧
      convertCurrency y B A r = Except.ok x := by
  by_cases hAB : A = B
  · subst hAB
    exact ⟨x, by simp [convertCurrency], by simp [convertCurrency]⟩
  · have hfa : falsyRate (lookupRate r A) = false := by
      simp [falsyRate, ha, ha0]
    have hfb : falsyRate (lookupRate r B) = false := by
      simp [falsyRate, hb, hb0]
    refine ⟨x * a / b, ?_, ?_⟩
    · rw [convertCurrency, if_neg hAB, if_neg (by simp [hfa, hfb]), ha, hb]
      rfl
    · rw [convertCurrency, if_neg (Ne.symm hAB),
        if_neg (by simp [hfa, hfb]), ha, hb]
      simp only [Option.getD_some]
      rw [div_mul_cancel₀ _ hb0, mul_div_cancel_right₀ _ ha0]

/-- C8 witness: a round trip of the amount 5 between USD at rate 2 and EUR
at rate 3. -/
theorem C8_witness :
    ∃ y, convertCurrency 5 "USD" "EUR" [("USD", (2 : ℚ)), ("EUR", 3)] =
        Except.ok y ∧
      convertCurrency y "EUR" "USD" [("USD", (2 : ℚ)), ("EUR", 3)] =
        Except.ok 5 :=
  C8_round_trip 5 "USD" "EUR" [("USD", (2 : ℚ)), ("EUR", 3)] 2 3
    (by decide) (by decide) (by norm_num) (by norm_num)

/-- C4: with at least two invoices, the run produces a report exactly when
every invoice's creditor name and uid equal those of the first invoice; on
any mismatch, including a difference only in the uid, the run instead
aborts with the fatal creditor-mismatch error, so no report is produced. -/
theorem C4_creditor_consistency (invoices : List ProcessedInvoice)
    (rates : ExchangeRates) (first : ProcessedInvoice)
    (hfirst : invoices.head? = some first) (hlen : 2 ≤ invoices.length) :
    ((∃ rep, generateReport invoices rates = Except.ok rep) ↔
      ∀ inv ∈ invoices,
        inv.data.creditor.name = first.data.creditor.name ∧
        inv.data.creditor.uid = first.data.creditor.uid) ∧
    (generateReport invoices rates =
        Except.error FatalError.creditorMismatch ↔
      ¬ ∀ inv ∈ invoices,
        inv.data.creditor.name = first.data.creditor.name ∧
        inv.data.creditor.uid = first.data.creditor.uid) := by
  obtain ⟨rest, rfl⟩ : ∃ rest, invoices = first :: rest := by
    cases invoices with
    | nil => cases hfirst
    | cons a as =>
      rw [List.head?_cons, Option.some.injEq] at hfirst
      exact ⟨as, by rw [hfirst]⟩
  have hval : validateCreditors (first :: rest) = true ↔
      ∀ inv ∈ first :: rest,
        inv.data.creditor.name = first.data.creditor.name ∧
        inv.data.creditor.uid = first.data.creditor.uid := by
    simp [validateCreditors, List.all_eq_true, Bool.and_eq_true, beq_iff_eq]
  by_cases hv : validateCreditors (first :: rest) = true
  · constructor
    · simp only [generateReport, hv, if_true]
      exact ⟨fun _ => hval.mp hv, fun _ => ⟨_, rfl⟩⟩
    · simp only [generateReport, hv, if_true]
      constructor
      · intro h; cases h
      · intro h; exact absurd (hval.mp hv) h
  · have hvf : validateCreditors (first :: rest) = false := by
      rwa [Bool.not_eq_true] at hv
    constructor
    · constructor
      · intro ⟨rep, h⟩
        rw [generateReport, if_neg (by rw [hvf]; exact Bool.false_ne_true)]
          at h
        cases h
      · intro hall; exact absurd (hval.mpr hall) hv
    · constructor
      · intro _; exact fun hall => hv (hval.mpr hall)
      · intro _
        rw [generateReport, if_neg (by rw [hvf]; exact Bool.false_ne_true)]

/-- C4 witness: a concrete two-invoice run with matching creditors
produces a report. -/
theorem C4_witness :
    ∃ rep, generateReport [sampleInvoiceCHF, sampleInvoiceEUR] [] =
      Except.ok rep :=
  ((C4_creditor_consistency [sampleInvoiceCHF, sampleInvoiceEUR] []
    sampleInvoiceCHF rfl (by decide)).1).mpr (by decide)

/-- C3: every run that produces a report satisfies the cross checks: the
sum over all clients of the client CHF totals equals the grand CHF total,
and the sum over all months of the month CHF totals equals the grand CHF
total, exactly, in exact rational arithmetic. -/
theorem C3_report_sums (invoices : List ProcessedInvoice)
    (rates : ExchangeRates) (rep : Report)
    (h : generateReport invoices rates = Except.ok rep) :
    sumBy rep.clientSummary (fun c => c.totalBilledCHF) =
      rep.totalRevenueCHF ∧
    sumBy rep.monthlyRevenue (fun m => m.totalCHF) = rep.totalRevenueCHF := by
  by_cases hv : validateCreditors invoices = true
  · simp only [generateReport, hv, if_true, Except.ok.injEq] at h
    subst h
    exact sums_foldl rates invoices emptyReport rfl rfl
  · simp only [generateReport, hv, Bool.false_eq_true, if_false] at h
    cases h

/-- C3 witness: the cross-check sums of the report of a concrete
single-invoice run. -/
theorem C3_witness :
    ∃ rep, generateReport [sampleInvoiceCHF] [] = Except.ok rep ∧
      sumBy rep.clientSummary (fun c => c.totalBilledCHF) =
        rep.totalRevenueCHF ∧
      sumBy rep.monthlyRevenue (fun m => m.totalCHF) =
        rep.totalRevenueCHF := by
  have h : generateReport [sampleInvoiceCHF] [] = Except.ok
      ⟨[("CHF", 100)], 100, [("03", ⟨100, 100, [("CHF", 100)]⟩)],
        [("Acme", ⟨100, 100, 1, "CHF"⟩)],
        [⟨"Acme", "03", "2025-03-01", "2503-001", 100, 100, "CHF", 1,
          "2025-03-acme.json"⟩], []⟩ := by
    simp [generateReport, validateCreditors, sampleInvoiceCHF, stepInvoice,
      emptyReport, convResult, orCHF, invoiceTotalOf, entryOf, bump,
      updateAlist, sortByDate, insertByDate, creditorA]
  exact ⟨_, h, C3_report_sums [sampleInvoiceCHF] [] _ h⟩

/-- C6: a failed per-invoice conversion is recovered locally: with
consistent creditors the run still produces a report; the failing
invoice's summary row is in the report with its CHF amount equal to its
native amount (the 1:1 fallback), and the conversion warning is logged
among the run's warnings. -/
theorem C6_conversion_fallback (invoices : List ProcessedInvoice)
    (rates : ExchangeRates) (inv : ProcessedInvoice) (e : ConvError)
    (hval : validateCreditors invoices = true)
    (hmem : inv ∈ invoices)
    (hfail : convertCurrency (invoiceTotalOf inv.data)
      (orCHF inv.data.currency) "CHF" rates = Except.error e) :
    ∃ rep, generateReport invoices rates = Except.ok rep ∧
      entryOf rates inv ∈ rep.invoices ∧
      (entryOf rates inv).amountCHF = (entryOf rates inv).amount ∧
      e ∈ rep.warnings := by
  have hcur : (orCHF inv.data.currency == "CHF") = false := by
    by_contra hc
    rw [Bool.not_eq_false, beq_iff_eq] at hc
    rw [hc, convertCurrency, if_pos rfl] at hfail
    cases hfail
  have hconv : convResult rates inv = (invoiceTotalOf inv.data, some e) := by
    simp only [convResult, hcur, Bool.false_eq_true, if_false, hfail]
  refine ⟨_, by rw [generateReport, if_pos hval], ?_, ?_, ?_⟩
  · show entryOf rates inv ∈ sortByDate
      ((invoices.foldl (stepInvoice rates) emptyReport).invoices)
    rw [mem_sortByDate, (foldl_rows_warnings rates invoices emptyReport).1]
    exact List.mem_append_right _ (List.mem_map_of_mem _ hmem)
  · simp [entryOf, hconv]
  · show e ∈ (invoices.foldl (stepInvoice rates) emptyReport).warnings
    rw [(foldl_rows_warnings rates invoices emptyReport).2]
    refine List.mem_append_right _ (List.mem_filterMap.mpr ⟨inv, hmem, ?_⟩)
    rw [hconv]

/-- C6 witness: a concrete run of one EUR invoice against an empty rate
table: the conversion fails, yet the run produces a report holding the 1:1
row and the logged warning. -/
theorem C6_witness :
    ∃ rep, generateReport [sampleInvoiceEUR] [] = Except.ok rep ∧
      entryOf [] sampleInvoiceEUR ∈ rep.invoices ∧
      (entryOf [] sampleInvoiceEUR).amountCHF =
        (entryOf [] sampleInvoiceEUR).amount ∧
      ConvError.noRate "EUR" "CHF" ∈ rep.warnings :=
  C6_conversion_fallback [sampleInvoiceEUR] [] sampleInvoiceEUR
    (ConvError.noRate "EUR" "CHF") rfl (by simp)
    (by simp [sampleInvoiceEUR, orCHF, convertCurrency, lookupRate,
      falsyRate])

end RaasTools
